import Mathlib

/-!
Verification of the SimplyCodes scraper core
(`src/scrapers/simplycodes_scraper.py`): category discovery with
deduplication and level classification, per-page coupon extraction,
blocked-page recovery, retry with backoff, and the hierarchical tree
builder `organize_data_tree`.

The Python code is shallowly embedded: DOM pages become explicit records
of the values the code reads from them, dictionaries become insertion
ordered association lists with Python assignment semantics, and the
fallible element accessors (`get_attribute`, `inner_text`) become
`Option`-valued fields where `none` models a raised exception.
-/

namespace SimplyCodes

/-! ## String helpers, each embedding one Python string operation -/

/-- Embedding of Python `s.split('/')`: splits on every `'/'`, keeping
empty segments, so `"".split('/') = [""]` and `"/".split('/') = ["", ""]`. -/
def splitSlashAux : List Char → List Char → List String
  | [], acc => [⟨acc.reverse⟩]
  | c :: cs, acc =>
    if c = '/' then ⟨acc.reverse⟩ :: splitSlashAux cs []
    else splitSlashAux cs (c :: acc)

/-- `splitSlash s` is Python's `s.split('/')`. -/
def splitSlash (s : String) : List String := splitSlashAux s.data []

/-- Characters stripped by Python's default `str.strip()`. -/
def isPySpace (c : Char) : Bool :=
  c = ' ' || c = '\t' || c = '\n' || c = '\r' || c = '\x0b' || c = '\x0c'

/-- Embedding of Python `s.strip()`. -/
def pyStrip (s : String) : String :=
  ⟨((s.data.dropWhile isPySpace).reverse.dropWhile isPySpace).reverse⟩

/-- Embedding of Python `s.lower()` (ASCII range, which is all the code
compares against). -/
def pyLower (s : String) : String := ⟨s.data.map Char.toLower⟩

/-- Embedding of Python `s.replace('-', ' ')` (single-character pattern,
hence a character map). -/
def pyReplaceDashSpace (s : String) : String :=
  ⟨s.data.map (fun c => if c = '-' then ' ' else c)⟩

/-- Embedding of Python `s.title()`: a letter is upper-cased when the
preceding character is not a letter, lower-cased otherwise. -/
def pyTitleAux : Bool → List Char → List Char
  | _, [] => []
  | prevAlpha, c :: cs =>
    (if prevAlpha then c.toLower else c.toUpper) :: pyTitleAux c.isAlpha cs

/-- `pyTitle s` is Python's `s.title()`. -/
def pyTitle (s : String) : String := ⟨pyTitleAux false s.data⟩

/-- Embedding of Python `pat in s` (substring containment). -/
def containsSub (s pat : String) : Bool := decide (List.IsInfix pat.data s.data)

/-- Embedding of Python `s.startswith('/')`. -/
def startsWithSlash (s : String) : Bool :=
  match s.data with
  | '/' :: _ => true
  | _ => false

/-- The block-page test used throughout the scraper:
`"403" in title or "forbidden" in title.lower()`. -/
def isBlockedTitle (title : String) : Bool :=
  containsSub title "403" || containsSub (pyLower title) "forbidden"

/-! ## Data model -/

/-- One raw `<a>` element as the discovery code observes it.
`href?` is the result of `link.get_attribute('href')`: `none` models the
call raising (the code catches and skips), `some none` models a missing
attribute (Python `None`), `some (some h)` a present value.
`text?` is the result of `link.inner_text()`: `none` models a raise. -/
structure RawLink where
  href? : Option (Option String)
  text? : Option String
deriving DecidableEq, Repr

/-- A discovered category record, with the keys the Python dicts carry.
Keys the code reads through `.get(key, default)` keep that default when
absent (`level` defaults to 2, the slug fields to `""`). -/
structure Category where
  title : String
  url : String
  category_path : String
  level : Nat := 2
  parent_category : String := ""
  parent_path : String := ""
  level1 : String := ""
  level2 : String := ""
  level3 : String := ""
deriving DecidableEq, Repr

/-- A coupon as emitted by `_extract_single_coupon`. -/
structure Coupon where
  brand : String
  code : String
  description : String
  button_index : Nat
deriving DecidableEq, Repr

/-- A coupon annotated with the category path it was scraped from,
the shape `organize_data_tree` receives. -/
structure TaggedCoupon where
  brand : String
  code : String
  description : String
  button_index : Nat
  category_path : String
deriving DecidableEq, Repr

/-! ## Category discovery (`discover_categories`, `_extract_categories`,
`_extract_level3_subcategories_from_main_page`) -/

/-- The href a raw link yields when its accessor succeeds with a present
attribute, `""` otherwise; used only to phrase dedup facts. -/
def hrefOf (l : RawLink) : String :=
  match l.href? with
  | some (some h) => h
  | _ => ""

/-- The dedup loop of `_extract_categories` (lines 112-124): walk the
concatenated selector matches, keep a link whose `get_attribute('href')`
succeeds with a truthy href not seen before; a raised accessor skips the
link. -/
def dedupeAux : List RawLink → List String → List RawLink
  | [], _ => []
  | l :: ls, seen =>
    match l.href? with
    | none => dedupeAux ls seen
    | some none => dedupeAux ls seen
    | some (some h) =>
      if h ≠ "" ∧ h ∉ seen then l :: dedupeAux ls (h :: seen)
      else dedupeAux ls seen

/-- Deduplicate selector matches by href, first seen wins. -/
def dedupeByHref (links : List RawLink) : List RawLink := dedupeAux links []

/-- Relative-to-absolute URL conversion used by both discovery passes. -/
def mkFullUrl (href : String) : String :=
  if startsWithSlash href then "https://simplycodes.com" ++ href else href

/-- Level classification of `_extract_categories` (lines 142-149):
4 path segments → level 2, ≥5 → level 3, anything else defaults to 2. -/
def levelOf (href : String) : Nat :=
  if (splitSlash href).length = 4 then 2
  else if (splitSlash href).length ≥ 5 then 3
  else 2

/-- The per-link body of the main extraction loop (lines 130-161): read
href and stripped text, and when both are truthy build the category
record; a raised accessor or falsy value skips the link. -/
def extractMainCategory (l : RawLink) : Option Category :=
  match l.href?, l.text? with
  | some (some href), some text =>
    if href ≠ "" ∧ pyStrip text ≠ "" then
      some { title := pyStrip text
             url := mkFullUrl href
             category_path := href
             level := levelOf href }
    else none
  | _, _ => none

/-- The main (level-2) discovery pass: union the three selector results,
dedupe by href, then extract each surviving link. -/
def mainPass (links1 links2 links3 : List RawLink) : List Category :=
  (dedupeByHref (links1 ++ links2 ++ links3)).filterMap extractMainCategory

/-- The per-`li` body of `_extract_level3_subcategories_from_main_page`
(lines 195-233): keep links with truthy href and text whose path has at
least 5 segments, recording the slug fields; no deduplication. -/
def extractLevel3 (l : RawLink) : Option Category :=
  match l.href?, l.text? with
  | some (some href), some text =>
    if href ≠ "" ∧ pyStrip text ≠ "" then
      if (splitSlash href).length ≥ 5 then
        some { title := pyStrip text
               url := mkFullUrl href
               category_path := href
               level := 3
               parent_category := (splitSlash href).getD 2 "" ++ " > " ++
                 (splitSlash href).getD 3 ""
               parent_path := "/category/" ++ (splitSlash href).getD 2 "" ++ "/" ++
                 (splitSlash href).getD 3 ""
               level1 := (splitSlash href).getD 2 ""
               level2 := (splitSlash href).getD 3 ""
               level3 := (splitSlash href).getD 4 "" }
      else none
    else none
  | _, _ => none

/-- The level-3 pass over the anchors found inside the expandable
sections of the main page. -/
def level3Pass (liLinks : List RawLink) : List Category :=
  liLinks.filterMap extractLevel3

/-- Everything `discover_categories` reads from the taxonomy root page:
its title, the matches of the three main selectors, and the anchors of
the collapsible `li` sections. -/
structure CategoriesPage where
  title : String
  links1 : List RawLink
  links2 : List RawLink
  links3 : List RawLink
  liLinks : List RawLink
deriving Repr

/-- `_extract_categories`: main pass followed by the level-3 pass. -/
def extract_categories (p : CategoriesPage) : List Category :=
  mainPass p.links1 p.links2 p.links3 ++ level3Pass p.liLinks

/-- `discover_categories`: return `[]` on a blocked root page, otherwise
extract. -/
def discover_categories (p : CategoriesPage) : List Category :=
  if isBlockedTitle p.title then [] else extract_categories p

/-! ## Coupon extraction (`_extract_coupons`, `_extract_single_coupon`) -/

/-- One `div[role='button']` coupon block, holding the inner text of the
three sub-elements the extractor queries (`none` when the element is
absent from the block). -/
structure CouponBlock where
  h3 : Option String
  codeSpan : Option String
  h4 : Option String
deriving DecidableEq, Repr

/-- `_extract_single_coupon`: read brand (`h3`), code (`button
span.uppercase.truncate`) and description (`h4`), strip each, and emit a
coupon exactly when all three are present and non-empty. -/
def extract_single_coupon (b : CouponBlock) (button_index : Nat) : Option Coupon :=
  let brand := b.h3.map pyStrip
  let code := b.codeSpan.map pyStrip
  let description := b.h4.map pyStrip
  match brand, code, description with
  | some br, some cd, some ds =>
    if br ≠ "" ∧ cd ≠ "" ∧ ds ≠ "" then
      some { brand := br, code := cd, description := ds, button_index := button_index }
    else none
  | _, _, _ => none

/-- The `enumerate` loop of `_extract_coupons`, keeping the running
block index. -/
def extractCouponsAux (idx : Nat) : List CouponBlock → List Coupon
  | [] => []
  | b :: bs =>
    match extract_single_coupon b idx with
    | some c => c :: extractCouponsAux (idx + 1) bs
    | none => extractCouponsAux (idx + 1) bs

/-- `_extract_coupons` applied to the blocks found inside the grid. -/
def extract_coupons (blocks : List CouponBlock) : List Coupon :=
  extractCouponsAux 0 blocks

/-- `_extract_data`: `None` grid (selector not found) yields `[]`,
otherwise extract the blocks. -/
def extract_data (grid? : Option (List CouponBlock)) : List Coupon :=
  match grid? with
  | none => []
  | some blocks => extract_coupons blocks

/-- A block is complete when brand, code and description all strip to a
non-empty string (absent elements count as empty). -/
def blockComplete (b : CouponBlock) : Bool :=
  pyStrip (b.h3.getD "") != "" &&
  pyStrip (b.codeSpan.getD "") != "" &&
  pyStrip (b.h4.getD "") != ""

/-- The coupon a complete block yields at a given index. -/
def strippedCoupon (b : CouponBlock) (idx : Nat) : Coupon :=
  { brand := pyStrip (b.h3.getD "")
    code := pyStrip (b.codeSpan.getD "")
    description := pyStrip (b.h4.getD "")
    button_index := idx }

/-! ## Single-page scrape with blocked-page recovery (`scrape`,
`_handle_blocked_page`) -/

/-- Everything one `scrape(url)` call can observe from the page: the
title on first load, the title after the recovery reload, and the coupon
grid contents at each of the two points (`none` = grid selector absent). -/
structure ScrapePage where
  title : String
  titleAfterReload : String
  grid? : Option (List CouponBlock)
  gridAfterReload? : Option (List CouponBlock)
deriving Repr

/-- Outcome of a `scrape` call, with counters for the observable
recovery actions (header swap via `set_extra_http_headers`, and
`reload`). -/
structure ScrapeResult where
  coupons : List Coupon
  headerSwaps : Nat
  reloads : Nat
deriving DecidableEq, Repr

/-- `_handle_blocked_page`: swap the User-Agent header, reload, re-check
the title; extract when unblocked, else return `[]`. -/
def handle_blocked_page (p : ScrapePage) : ScrapeResult :=
  if ¬ (isBlockedTitle p.titleAfterReload = true) then
    { coupons := extract_data p.gridAfterReload?, headerSwaps := 1, reloads := 1 }
  else
    { coupons := [], headerSwaps := 1, reloads := 1 }

/-- `scrape`: navigate, check the title for a block signal, delegate to
recovery when blocked, otherwise extract directly. -/
def scrape (p : ScrapePage) : ScrapeResult :=
  if isBlockedTitle p.title then handle_blocked_page p
  else { coupons := extract_data p.grid?, headerSwaps := 0, reloads := 0 }

/-! ## Retry coordinator (`scrape_with_retry`) -/

/-- Result of a retry run: the returned coupons, the number of
underlying `scrape` calls performed, and the list of waits (in seconds)
slept between consecutive attempts. -/
structure RetryTrace where
  result : List Coupon
  calls : Nat
  waits : List Nat
deriving DecidableEq, Repr

/-- The `for attempt in range(max_retries)` loop of `scrape_with_retry`:
`f n` is what `self.scrape(url)` returns on the `n`-th (0-based) call;
`fuel` is the number of attempts remaining. A non-empty result returns
immediately; otherwise, when a later attempt remains, the loop sleeps
`(attempt + 1) * 5` seconds and retries. -/
def retryGo (f : Nat → List Coupon) : Nat → Nat → RetryTrace
  | _, 0 => { result := [], calls := 0, waits := [] }
  | attempt, fuel + 1 =>
    let r := f attempt
    if r ≠ [] then { result := r, calls := 1, waits := [] }
    else if fuel = 0 then { result := [], calls := 1, waits := [] }
    else
      let rest := retryGo f (attempt + 1) fuel
      { result := rest.result
        calls := rest.calls + 1
        waits := (attempt + 1) * 5 :: rest.waits }

/-- `scrape_with_retry` with the underlying per-attempt scrape results
abstracted as `f`. -/
def scrape_with_retry (f : Nat → List Coupon) (max_retries : Nat := 3) : RetryTrace :=
  retryGo f 0 max_retries

/-! ## The tree builder (`organize_data_tree`)

The tree the Python code builds is a nested dictionary of strings,
numbers and dictionaries.  We embed it as the inductive `Val`;
dictionaries keep Python's insertion-order semantics: assignment to an
existing key updates it in place, a new key is appended at the end. -/

/-- A JSON-like value: the possible contents of the nested tree dict.
`list` never occurs in what `organize_data_tree` builds; it is the shape
a coupons array would have if one were attached. -/
inductive Val where
  | str (s : String)
  | nat (n : Nat)
  | dict (d : List (String × Val))
  | list (l : List Val)
deriving Repr

/-- Dictionary lookup, `d[k]` / `k in d`. -/
def dget : List (String × Val) → String → Option Val
  | [], _ => none
  | (k', v) :: rest, k => if k' = k then some v else dget rest k

/-- Python dict assignment `d[k] = v`: update in place when the key
exists, append otherwise. -/
def dset : List (String × Val) → String → Val → List (String × Val)
  | [], k, v => [(k, v)]
  | (k', v') :: rest, k, v =>
    if k' = k then (k', v) :: rest else (k', v') :: dset rest k v

/-- Update the value stored at an existing key; absent keys are left
unchanged (the code only modifies keys it has just ensured exist). -/
def dmodify : List (String × Val) → String → (Val → Val) → List (String × Val)
  | [], _, _ => []
  | (k', v') :: rest, k, f =>
    if k' = k then (k', f v') :: rest else (k', v') :: dmodify rest k f

/-- `if k not in d: d[k] = v` -/
def ensureKey (d : List (String × Val)) (k : String) (v : Val) : List (String × Val) :=
  if (dget d k).isSome then d else dset d k v

/-- The level-1 node created when a slug is first seen (lines 523-528 /
548-553): title-cased hyphens-to-spaces name, reconstructed path, empty
subcategories map. -/
def level1Default (lv1 : String) : Val :=
  .dict [("category_name", .str (pyTitle (pyReplaceDashSpace lv1))),
         ("category_path", .str ("/category/" ++ lv1)),
         ("subcategories", .dict [])]

/-- The level-2 node written for a discovered level-2 category
(lines 531-537). -/
def level2NodeOfCategory (c : Category) : Val :=
  .dict [("subcategories_name", .str c.title),
         ("subcategories_path", .str c.category_path),
         ("url", .str c.url),
         ("level", .nat 2),
         ("parent_category", .str c.parent_category)]

/-- The synthesized level-2 node created when a level-3 link arrives
before its level-2 parent was discovered (lines 556-563). -/
def level2Synth (lv1 lv2 : String) : Val :=
  .dict [("subcategories_name", .str (pyTitle (pyReplaceDashSpace lv2))),
         ("subcategories_path", .str ("/category/" ++ lv1 ++ "/" ++ lv2)),
         ("url", .str ("https://simplycodes.com/category/" ++ lv1 ++ "/" ++ lv2)),
         ("level", .nat 2),
         ("parent_category", .str lv1)]

/-- The level-3 node attached for a level-3 category (lines 567-573). -/
def level3Node (c : Category) : Val :=
  .dict [("subcategories_name", .str c.title),
         ("subcategories_path", .str c.category_path),
         ("url", .str c.url),
         ("level", .nat 3),
         ("parent_category", .str (c.level1 ++ " > " ++ c.level2))]

/-- `tree[lv1]['subcategories'][lv2] = node`. -/
def setSub2 (tree : List (String × Val)) (lv1 lv2 : String) (node : Val) :
    List (String × Val) :=
  dmodify tree lv1 (fun v =>
    match v with
    | .dict d => .dict (dmodify d "subcategories" (fun sv =>
        match sv with
        | .dict sd => .dict (dset sd lv2 node)
        | sv => sv))
    | v => v)

/-- The subcategories map of `tree[lv1]`, used for the
`level2 not in tree[level1]['subcategories']` membership test. -/
def getSubs (tree : List (String × Val)) (lv1 : String) : List (String × Val) :=
  match dget tree lv1 with
  | some (.dict d) =>
    match dget d "subcategories" with
    | some (.dict sd) => sd
    | _ => []
  | _ => []

/-- Lines 566-567 applied to the level-2 node:
`x['subcategories'] = x.get('subcategories', {})` followed by
`x['subcategories'][lv3] = node`. -/
def updL2Node (lv3 : String) (node : Val) (l2v : Val) : Val :=
  match l2v with
  | .dict d =>
    let cur := (dget d "subcategories").getD (.dict [])
    let d1 := dset d "subcategories" cur
    .dict (dmodify d1 "subcategories" (fun sv =>
      match sv with
      | .dict sd => .dict (dset sd lv3 node)
      | sv => sv))
  | v => v

/-- `tree[lv1]['subcategories'][lv2]` updated through `updL2Node`. -/
def attachL3 (tree : List (String × Val)) (lv1 lv2 lv3 : String) (node : Val) :
    List (String × Val) :=
  dmodify tree lv1 (fun v =>
    match v with
    | .dict d => .dict (dmodify d "subcategories" (fun sv =>
        match sv with
        | .dict sd => .dict (dmodify sd lv2 (updL2Node lv3 node))
        | sv => sv))
    | v => v)

/-- `path_parts[i]` (with the code's `if len(...) > i else ""` default)
of a category's path. -/
def slugAt (c : Category) (i : Nat) : String :=
  (splitSlash c.category_path).getD i ""

/-- Lines 547-563 of the level-3 branch: ensure the level-1 node exists,
then ensure the level-2 node exists, synthesizing defaults when it does
not. -/
def org3Pre (tree : List (String × Val)) (c : Category) : List (String × Val) :=
  if (dget (getSubs (ensureKey tree c.level1 (level1Default c.level1)) c.level1)
        c.level2).isSome then
    ensureKey tree c.level1 (level1Default c.level1)
  else
    setSub2 (ensureKey tree c.level1 (level1Default c.level1))
      c.level1 c.level2 (level2Synth c.level1 c.level2)

/-- The body of the `for category in categories` loop of
`organize_data_tree` (lines 512-573). -/
def orgStep (tree : List (String × Val)) (c : Category) : List (String × Val) :=
  if c.level = 2 then
    if (splitSlash c.category_path).length ≥ 4 then
      setSub2 (ensureKey tree (slugAt c 2) (level1Default (slugAt c 2)))
        (slugAt c 2) (slugAt c 3) (level2NodeOfCategory c)
    else tree
  else if c.level = 3 then
    if c.level1 ≠ "" ∧ c.level2 ≠ "" ∧ c.level3 ≠ "" then
      attachL3 (org3Pre tree c) c.level1 c.level2 c.level3 (level3Node c)
    else tree
  else tree

/-- `organize_data_tree`: fold the categories into a nested tree.  The
`coupons` parameter is accepted but — as the code's own closing comment
states — never used: coupon data is not included in the tree. -/
def organize_data_tree (categories : List Category)
    (_coupons : List TaggedCoupon) : List (String × Val) :=
  categories.foldl orgStep []

/-! ## Observations on trees -/

/-- A level-3 node carries no `coupons` entry. -/
def l3NoCoupons : Val → Bool
  | .dict d => (dget d "coupons").isNone
  | _ => true

/-- A level-2 node and all its level-3 children carry no `coupons`
entry. -/
def l2NoCoupons : Val → Bool
  | .dict d =>
    (dget d "coupons").isNone &&
    (match dget d "subcategories" with
     | some (.dict sd) => sd.all (fun kv => l3NoCoupons kv.2)
     | _ => true)
  | _ => true

/-- A level-1 node and everything below it carry no `coupons` entry. -/
def l1NoCoupons : Val → Bool
  | .dict d =>
    (dget d "coupons").isNone &&
    (match dget d "subcategories" with
     | some (.dict sd) => sd.all (fun kv => l2NoCoupons kv.2)
     | _ => true)
  | _ => true

/-- No node of the (three-level) tree carries a `coupons` entry. -/
def treeNoCoupons (tree : List (String × Val)) : Bool :=
  tree.all (fun kv => l1NoCoupons kv.2)

/-- A level-2 node is a dict whose `subcategories` entry, when present,
is itself a dict. -/
def l2NodeOK : Val → Bool
  | .dict d =>
    match dget d "subcategories" with
    | some (.dict _) => true
    | some _ => false
    | none => true
  | _ => false

/-- A level-1 node is a dict with a `subcategories` dict of well-shaped
level-2 nodes. -/
def l1NodeOK : Val → Bool
  | .dict d =>
    match dget d "subcategories" with
    | some (.dict sd) => sd.all (fun kv => l2NodeOK kv.2)
    | _ => false
  | _ => false

/-- Every level-1 entry of the tree is well-shaped.  This is the shape
`organize_data_tree` itself maintains. -/
def treeOK (tree : List (String × Val)) : Bool :=
  tree.all (fun kv => l1NodeOK kv.2)

/-- `tree[lv1]['subcategories'][lv2]`, read defensively. -/
def treeNodeAt2 (tree : List (String × Val)) (lv1 lv2 : String) : Option Val :=
  match dget tree lv1 with
  | some (.dict d) =>
    match dget d "subcategories" with
    | some (.dict sd) => dget sd lv2
    | _ => none
  | _ => none

/-- `tree[lv1]['subcategories'][lv2]['subcategories'][lv3]`. -/
def treeNodeAt3 (tree : List (String × Val)) (lv1 lv2 lv3 : String) : Option Val :=
  match treeNodeAt2 tree lv1 lv2 with
  | some (.dict l2d) =>
    match dget l2d "subcategories" with
    | some (.dict s3) => dget s3 lv3
    | _ => none
  | _ => none

/-- The `coupons` entry of a node, if the node exists, is a dict and has
one. -/
def nodeCoupons : Option Val → Option Val
  | some (.dict d) => dget d "coupons"
  | _ => none

/-! ## Dictionary lemmas -/

theorem dget_dset_self (d : List (String × Val)) (k : String) (v : Val) :
    dget (dset d k v) k = some v := by
  induction d with
  | nil => simp [dget, dset]
  | cons kv rest ih =>
    by_cases h : kv.1 = k
    · simp [dset, dget, h]
    · simp [dset, dget, h, ih]

theorem dget_dset_ne (d : List (String × Val)) (k k' : String) (v : Val)
    (h : k' ≠ k) : dget (dset d k' v) k = dget d k := by
  induction d with
  | nil => simp [dget, dset, h]
  | cons kv rest ih =>
    by_cases h1 : kv.1 = k'
    · simp [dset, dget, h1, fun hh : k' = k => h hh]
    · simp [dset, dget, h1, ih]

theorem dget_dmodify_self (d : List (String × Val)) (k : String) (f : Val → Val) :
    dget (dmodify d k f) k = (dget d k).map f := by
  induction d with
  | nil => simp [dget, dmodify]
  | cons kv rest ih =>
    by_cases h : kv.1 = k
    · simp [dmodify, dget, h]
    · simp [dmodify, dget, h, ih]

theorem dget_dmodify_ne (d : List (String × Val)) (k k' : String) (f : Val → Val)
    (h : k' ≠ k) : dget (dmodify d k' f) k = dget d k := by
  induction d with
  | nil => simp [dmodify]
  | cons kv rest ih =>
    by_cases h1 : kv.1 = k'
    · simp [dmodify, dget, h1, fun hh : k' = k => h hh]
    · simp [dmodify, dget, h1, ih]

theorem all_dset {P : Val → Bool} {d : List (String × Val)} {k : String} {v : Val}
    (hd : d.all (fun kv => P kv.2) = true) (hv : P v = true) :
    (dset d k v).all (fun kv => P kv.2) = true := by
  induction d with
  | nil => simpa [dset] using hv
  | cons kv rest ih =>
    simp only [List.all_cons, Bool.and_eq_true] at hd
    by_cases h : kv.1 = k
    · simp [dset, h, hv, hd.2]
    · simp [dset, h, hd.1, ih hd.2]

theorem all_dmodify {P : Val → Bool} {d : List (String × Val)} {k : String}
    {f : Val → Val} (hd : d.all (fun kv => P kv.2) = true)
    (hf : ∀ x, P x = true → P (f x) = true) :
    (dmodify d k f).all (fun kv => P kv.2) = true := by
  induction d with
  | nil => simp [dmodify]
  | cons kv rest ih =>
    simp only [List.all_cons, Bool.and_eq_true] at hd
    by_cases h : kv.1 = k
    · simp [dmodify, h, hf _ hd.1, hd.2]
    · simp [dmodify, h, hd.1, ih hd.2]

theorem dset_of_dget_none {d : List (String × Val)} {k : String} (v : Val)
    (h : dget d k = none) : dset d k v = d ++ [(k, v)] := by
  induction d with
  | nil => simp [dset]
  | cons kv rest ih =>
    by_cases h1 : kv.1 = k
    · simp [dget, h1] at h
    · simp only [dget, h1, if_neg h1] at h
      simp [dset, h1, ih h]

theorem dmodify_append_singleton {d : List (String × Val)} {k : String}
    (v : Val) (f : Val → Val) (h : dget d k = none) :
    dmodify (d ++ [(k, v)]) k f = d ++ [(k, f v)] := by
  induction d with
  | nil => simp [dmodify]
  | cons kv rest ih =>
    by_cases h1 : kv.1 = k
    · simp [dget, h1] at h
    · simp only [dget, h1, if_neg h1] at h
      simp [dmodify, h1, ih h]

theorem dget_append_of_dget_none {d rest : List (String × Val)} {k : String}
    (h : dget d k = none) : dget (d ++ rest) k = dget rest k := by
  induction d with
  | nil => simp
  | cons kv tl ih =>
    by_cases h1 : kv.1 = k
    · simp [dget, h1] at h
    · simp only [dget, h1, if_neg h1] at h
      simp [dget, h1, ih h]

theorem dmodify_cons_self (k : String) (v : Val) (rest : List (String × Val))
    (f : Val → Val) : dmodify ((k, v) :: rest) k f = (k, f v) :: rest := by
  simp [dmodify]

/-! ## No `coupons` entry is ever created -/

theorem l1NoCoupons_level1Default (lv1 : String) :
    l1NoCoupons (level1Default lv1) = true := by
  simp [l1NoCoupons, level1Default, dget]

theorem l2NoCoupons_level2NodeOfCategory (c : Category) :
    l2NoCoupons (level2NodeOfCategory c) = true := by
  simp [l2NoCoupons, level2NodeOfCategory, dget]

theorem l2NoCoupons_level2Synth (lv1 lv2 : String) :
    l2NoCoupons (level2Synth lv1 lv2) = true := by
  simp [l2NoCoupons, level2Synth, dget]

theorem l3NoCoupons_level3Node (c : Category) :
    l3NoCoupons (level3Node c) = true := by
  simp [l3NoCoupons, level3Node, dget]

/-- The `setSub2` update keeps every level-1 node coupon-free provided
the inserted level-2 node is. -/
theorem l1NoCoupons_setSub2_fun {node : Val} (lv2 : String)
    (hnode : l2NoCoupons node = true) :
    ∀ x, l1NoCoupons x = true →
      l1NoCoupons
        (match x with
         | .dict d => .dict (dmodify d "subcategories" (fun sv =>
             match sv with
             | .dict sd => .dict (dset sd lv2 node)
             | sv => sv))
         | x => x) = true := by
  intro x hx
  cases x with
  | str s => exact hx
  | nat n => exact hx
  | list l => exact hx
  | dict d =>
    simp only [l1NoCoupons, Bool.and_eq_true] at hx ⊢
    refine ⟨?_, ?_⟩
    · rw [dget_dmodify_ne d "coupons" "subcategories" _ (by decide)]
      exact hx.1
    · rw [dget_dmodify_self]
      cases hsub : dget d "subcategories" with
      | none => rfl
      | some sv =>
        rw [hsub] at hx
        cases sv with
        | dict sd => exact all_dset hx.2 hnode
        | str s => rfl
        | nat n => rfl
        | list l => rfl

theorem ensureKey_noCoupons {tree : List (String × Val)} {k : String} {v : Val}
    (ht : treeNoCoupons tree = true) (hv : l1NoCoupons v = true) :
    treeNoCoupons (ensureKey tree k v) = true := by
  unfold ensureKey
  split
  · exact ht
  · exact all_dset ht hv

theorem setSub2_noCoupons {tree : List (String × Val)} {lv1 lv2 : String}
    {node : Val} (ht : treeNoCoupons tree = true) (hn : l2NoCoupons node = true) :
    treeNoCoupons (setSub2 tree lv1 lv2 node) = true :=
  all_dmodify ht (l1NoCoupons_setSub2_fun lv2 hn)

/-- Attaching a level-3 node under an existing level-2 node keeps it
coupon-free. -/
theorem l2NoCoupons_updL2Node {node : Val} (lv3 : String)
    (hnode : l3NoCoupons node = true) :
    ∀ x, l2NoCoupons x = true → l2NoCoupons (updL2Node lv3 node x) = true := by
  intro x hx
  cases x with
  | str s => exact hx
  | nat n => exact hx
  | list l => exact hx
  | dict d =>
    simp only [updL2Node, l2NoCoupons, Bool.and_eq_true] at hx ⊢
    refine ⟨?_, ?_⟩
    · rw [dget_dmodify_ne _ "coupons" "subcategories" _ (by decide),
          dget_dset_ne _ "coupons" "subcategories" _ (by decide)]
      exact hx.1
    · rw [dget_dmodify_self, dget_dset_self]
      cases hsub : dget d "subcategories" with
      | none =>
        show (dset ([] : List (String × Val)) lv3 node).all
            (fun kv => l3NoCoupons kv.2) = true
        simpa [dset] using hnode
      | some sv =>
        rw [hsub] at hx
        cases sv with
        | dict sd => exact all_dset hx.2 hnode
        | str s => rfl
        | nat n => rfl
        | list l => rfl

theorem attachL3_noCoupons {tree : List (String × Val)} {lv1 lv2 lv3 : String}
    {node : Val} (ht : treeNoCoupons tree = true) (hn : l3NoCoupons node = true) :
    treeNoCoupons (attachL3 tree lv1 lv2 lv3 node) = true := by
  refine all_dmodify ht ?_
  intro x hx
  cases x with
  | str s => exact hx
  | nat n => exact hx
  | list l => exact hx
  | dict d =>
    simp only [l1NoCoupons, Bool.and_eq_true] at hx ⊢
    refine ⟨?_, ?_⟩
    · rw [dget_dmodify_ne d "coupons" "subcategories" _ (by decide)]
      exact hx.1
    · rw [dget_dmodify_self]
      cases hsub : dget d "subcategories" with
      | none => rfl
      | some sv =>
        rw [hsub] at hx
        cases sv with
        | dict sd => exact all_dmodify hx.2 (l2NoCoupons_updL2Node lv3 hn)
        | str s => rfl
        | nat n => rfl
        | list l => rfl

/-- One `organize_data_tree` loop iteration never creates a `coupons`
entry. -/
theorem orgStep_noCoupons (tree : List (String × Val)) (c : Category)
    (ht : treeNoCoupons tree = true) : treeNoCoupons (orgStep tree c) = true := by
  unfold orgStep
  split
  · split
    · exact setSub2_noCoupons
        (ensureKey_noCoupons ht (l1NoCoupons_level1Default _))
        (l2NoCoupons_level2NodeOfCategory c)
    · exact ht
  · split
    · split
      · refine attachL3_noCoupons ?_ (l3NoCoupons_level3Node c)
        unfold org3Pre
        split
        · exact ensureKey_noCoupons ht (l1NoCoupons_level1Default _)
        · exact setSub2_noCoupons
            (ensureKey_noCoupons ht (l1NoCoupons_level1Default _))
            (l2NoCoupons_level2Synth _ _)
      · exact ht
    · exact ht

theorem organize_noCoupons (cats : List Category) (cps : List TaggedCoupon) :
    treeNoCoupons (organize_data_tree cats cps) = true := by
  unfold organize_data_tree
  have h : ∀ (l : List Category) (t : List (String × Val)),
      treeNoCoupons t = true → treeNoCoupons (l.foldl orgStep t) = true := by
    intro l
    induction l with
    | nil => intro t ht; exact ht
    | cons c rest ih => intro t ht; exact ih _ (orgStep_noCoupons t c ht)
  exact h cats [] rfl

/-! ## Concrete scenario inputs -/

/-- The category of the spec's beauty/makeup scenario (§8). -/
def c1cat : Category :=
  { title := "Makeup"
    url := "https://simplycodes.com/category/beauty/makeup"
    category_path := "/category/beauty/makeup"
    level := 2 }

/-- The coupon of the spec's beauty/makeup scenario (§8). -/
def c1coupon : TaggedCoupon :=
  ⟨"Foo", "SAVE10", "10% off", 0, "/category/beauty/makeup"⟩

/-- The tree `organize_data_tree` actually produces for the scenario:
the category skeleton, with no coupons anywhere. -/
def c1tree : List (String × Val) :=
  [("beauty", .dict
    [("category_name", .str "Beauty"),
     ("category_path", .str "/category/beauty"),
     ("subcategories", .dict
       [("makeup", .dict
         [("subcategories_name", .str "Makeup"),
          ("subcategories_path", .str "/category/beauty/makeup"),
          ("url", .str "https://simplycodes.com/category/beauty/makeup"),
          ("level", .nat 2),
          ("parent_category", .str "")])])])]

/-- A level-3 category whose trailing path slug is empty
(`category_path` ends in `/`), as discovery produces for an href such as
`/category/a/b/`. -/
def c8bad : Category :=
  { title := "X"
    url := "https://simplycodes.com/category/a/b/"
    category_path := "/category/a/b/"
    level := 3
    parent_category := "a > b"
    parent_path := "/category/a/b"
    level1 := "a"
    level2 := "b"
    level3 := "" }

/-- A well-formed level-3 category used as a witness input. -/
def c8good : Category :=
  { title := "Skincare Tools"
    url := "https://simplycodes.com/category/beauty/skincare/tools"
    category_path := "/category/beauty/skincare/tools"
    level := 3
    parent_category := "beauty > skincare"
    parent_path := "/category/beauty/skincare"
    level1 := "beauty"
    level2 := "skincare"
    level3 := "tools" }

/-! ## Claim theorems: the tree builder -/

/-- Claim C9: `organize_data_tree` is a pure deterministic function of its two
inputs: repeated calls on the same inputs produce structurally equal
trees, and equal inputs always produce equal trees. -/
theorem organize_data_tree_deterministic :
    ∀ (cats : List Category) (cps : List TaggedCoupon),
      organize_data_tree cats cps = organize_data_tree cats cps ∧
      ∀ (cats' : List Category) (cps' : List TaggedCoupon),
        cats = cats' → cps = cps' →
        organize_data_tree cats cps = organize_data_tree cats' cps' := by
  intro cats cps
  exact ⟨rfl, fun cats' cps' h1 h2 => by rw [h1, h2]⟩

/-- Witness for C9 at concrete inputs. -/
theorem organize_data_tree_deterministic_witness :
    organize_data_tree [c1cat] [c1coupon] = organize_data_tree [c1cat] [c1coupon] :=
  (organize_data_tree_deterministic [c1cat] [c1coupon]).2 [c1cat] [c1coupon] rfl rfl

/-- Claim C10: the `coupons` argument has no influence on the produced tree —
`organize_data_tree` yields identical trees for any two coupons lists —
and no node of the produced tree carries a `coupons` entry. -/
theorem organize_data_tree_ignores_coupons :
    ∀ (cats : List Category) (cps1 cps2 : List TaggedCoupon),
      organize_data_tree cats cps1 = organize_data_tree cats cps2 ∧
      treeNoCoupons (organize_data_tree cats cps1) = true := by
  intro cats cps1 cps2
  exact ⟨rfl, organize_noCoupons cats cps1⟩

/-- Claim C1 counterexample: in the spec's beauty/makeup scenario the makeup
node exists, but it holds no coupons list at all — in particular not the
input coupon. -/
theorem makeup_node_has_no_coupons_list :
    (treeNodeAt2 (organize_data_tree [c1cat] [c1coupon]) "beauty" "makeup").isSome
      = true ∧
    ¬ ∃ cl, nodeCoupons
        (treeNodeAt2 (organize_data_tree [c1cat] [c1coupon]) "beauty" "makeup")
      = some (Val.list cl) := by
  refine ⟨rfl, ?_⟩
  rintro ⟨cl, h⟩
  rw [show nodeCoupons
      (treeNodeAt2 (organize_data_tree [c1cat] [c1coupon]) "beauty" "makeup")
      = none from rfl] at h
  exact Option.noConfusion h

/-- Claim C1 as amended: the tree builder drops every coupon regardless of its
`category_path` — the scenario tree is the category skeleton alone, the
same for every coupons list, and carries no `coupons` entry. -/
theorem organize_data_tree_drops_all_coupons :
    ∀ cps : List TaggedCoupon,
      organize_data_tree [c1cat] cps = c1tree ∧
      nodeCoupons (treeNodeAt2 (organize_data_tree [c1cat] cps) "beauty" "makeup")
        = none ∧
      treeNoCoupons (organize_data_tree [c1cat] cps) = true := by
  intro cps
  exact ⟨rfl, rfl, rfl⟩

/-- Claim C8 counterexample: a level-3 category whose `level3` slug is empty
(path `/category/a/b/`) is silently dropped — no level-1 node is
created and nothing is attached, contradicting the claim that every
level-3 link is attached. -/
theorem level3_empty_slug_dropped :
    c8bad.level = 3 ∧
    organize_data_tree [c8bad] [] = [] ∧
    dget (organize_data_tree [c8bad] []) "a" = none := by
  exact ⟨rfl, rfl, rfl⟩

/-! ## Claim theorems: retry coordinator and blocked-page recovery -/

/-- Claim C4: with `max_retries = 3`, an underlying scrape that always returns
empty is called exactly 3 times, the run returns empty, and the waits
between consecutive attempts are `1 × 5` and `2 × 5` seconds; and when
the (0-based) attempt `k` is the first to return non-empty, that result
is returned immediately after exactly `k + 1` calls, with waits
`(i + 1) × 5` after each failed attempt `i < k`. -/
theorem scrape_with_retry_policy (f : Nat → List Coupon) :
    ((∀ n, f n = []) →
      scrape_with_retry f 3 = { result := [], calls := 3, waits := [5, 10] }) ∧
    (∀ k, k < 3 → (∀ j, j < k → f j = []) → f k ≠ [] →
      scrape_with_retry f 3 =
        { result := f k, calls := k + 1,
          waits := (List.range k).map (fun i => (i + 1) * 5) }) := by
  constructor
  · intro h
    simp [scrape_with_retry, retryGo, h 0, h 1, h 2]
  · intro k hk hprev hcur
    interval_cases k
    · simp [scrape_with_retry, retryGo, hcur]
    · simp [scrape_with_retry, retryGo, hprev 0 (by omega), hcur, List.range_succ]
    · simp [scrape_with_retry, retryGo, hprev 0 (by omega), hprev 1 (by omega),
        hcur, List.range_succ]

/-- Witness for C4: the always-empty extractor and an extractor that
succeeds on its second call. -/
theorem scrape_with_retry_policy_witness :
    scrape_with_retry (fun _ => []) 3 = { result := [], calls := 3, waits := [5, 10] } ∧
    scrape_with_retry (fun n => if n = 1 then [⟨"B", "C", "D", 0⟩] else []) 3 =
      { result := [⟨"B", "C", "D", 0⟩], calls := 2, waits := [5] } := by
  constructor
  · exact (scrape_with_retry_policy (fun _ => [])).1 (fun _ => rfl)
  · have h := (scrape_with_retry_policy
      (fun n => if n = 1 then [⟨"B", "C", "D", 0⟩] else [])).2 1 (by omega)
      (fun j hj => by interval_cases j; rfl) (by decide)
    simpa using h

/-- Claim C6: on a page whose first title signals a block, `scrape` performs
exactly one header swap and one reload; if the new title no longer
signals a block it extracts normally, otherwise it returns an empty
coupon list (not an error), just like a legitimately empty category. -/
theorem scrape_blocked_recovery (p : ScrapePage)
    (h : isBlockedTitle p.title = true) :
    (scrape p).headerSwaps = 1 ∧
    (scrape p).reloads = 1 ∧
    (isBlockedTitle p.titleAfterReload = false →
      (scrape p).coupons = extract_data p.gridAfterReload?) ∧
    (isBlockedTitle p.titleAfterReload = true → (scrape p).coupons = []) := by
  by_cases h2 : isBlockedTitle p.titleAfterReload = true
  · simp [scrape, handle_blocked_page, h, h2]
  · simp only [Bool.not_eq_true] at h2
    simp [scrape, handle_blocked_page, h, h2]

/-- Witness for C6: a blocked page that recovers after the header swap,
yielding the coupons of the reloaded grid. -/
theorem scrape_blocked_recovery_witness :
    (scrape { title := "403 Forbidden", titleAfterReload := "SimplyCodes",
              grid? := none,
              gridAfterReload? := some [⟨some "B", some "C", some "D"⟩] }).headerSwaps
      = 1 ∧
    (scrape { title := "403 Forbidden", titleAfterReload := "SimplyCodes",
              grid? := none,
              gridAfterReload? := some [⟨some "B", some "C", some "D"⟩] }).coupons
      = [⟨"B", "C", "D", 0⟩] := by
  have h := scrape_blocked_recovery
    { title := "403 Forbidden", titleAfterReload := "SimplyCodes",
      grid? := none, gridAfterReload? := some [⟨some "B", some "C", some "D"⟩] }
    (by decide)
  exact ⟨h.1, by rw [h.2.2.1 (by decide)]; rfl⟩

/-! ## Claim theorems: coupon extraction -/

theorem pyStrip_empty : pyStrip "" = "" := rfl

/-- `_extract_single_coupon` emits exactly on complete blocks, and then
emits the stripped coupon at the given index. -/
theorem extract_single_coupon_eq (b : CouponBlock) (idx : Nat) :
    extract_single_coupon b idx =
      if blockComplete b then some (strippedCoupon b idx) else none := by
  rcases b with ⟨h3, cs, h4⟩
  cases h3 <;> cases cs <;> cases h4 <;>
    simp only [extract_single_coupon, blockComplete, strippedCoupon,
      Option.map_none', Option.map_some', Option.getD_none, Option.getD_some,
      pyStrip_empty, bne_self_eq_false, Bool.false_and, Bool.and_false,
      if_false, Bool.false_eq_true, if_neg, Bool.and_eq_true, bne_iff_ne,
      ne_eq] <;>
    try rfl
  split
  · next h =>
    rw [if_pos]
    tauto
  · next h =>
    rw [if_neg]
    tauto

/-- Membership in the extraction loop: a coupon is produced exactly by
some block of the list, at its enumeration index. -/
theorem mem_extractCouponsAux (bs : List CouponBlock) :
    ∀ (n : Nat) (c : Coupon),
      c ∈ extractCouponsAux n bs ↔
        ∃ i b, bs[i]? = some b ∧ extract_single_coupon b (n + i) = some c := by
  induction bs with
  | nil => intro n c; simp [extractCouponsAux]
  | cons b bs ih =>
    intro n c
    constructor
    · intro hc
      unfold extractCouponsAux at hc
      cases hE : extract_single_coupon b n with
      | some c0 =>
        rw [hE] at hc
        rcases List.mem_cons.mp hc with h | h
        · exact ⟨0, b, by simp, by simpa [h] using hE⟩
        · obtain ⟨i, b', hb', hx⟩ := (ih (n + 1) c).mp h
          refine ⟨i + 1, b', by simpa using hb', ?_⟩
          rw [show n + (i + 1) = n + 1 + i by omega]
          exact hx
      | none =>
        rw [hE] at hc
        obtain ⟨i, b', hb', hx⟩ := (ih (n + 1) c).mp hc
        refine ⟨i + 1, b', by simpa using hb', ?_⟩
        rw [show n + (i + 1) = n + 1 + i by omega]
        exact hx
    · rintro ⟨i, b', hb', hx⟩
      cases i with
      | zero =>
        simp only [List.getElem?_cons_zero, Option.some_inj] at hb'
        subst hb'
        rw [Nat.add_zero] at hx
        unfold extractCouponsAux
        rw [hx]
        exact List.mem_cons_self _ _
      | succ i =>
        simp only [List.getElem?_cons_succ] at hb'
        have hmem : c ∈ extractCouponsAux (n + 1) bs := by
          refine (ih (n + 1) c).mpr ⟨i, b', hb', ?_⟩
          rw [show n + 1 + i = n + (i + 1) by omega]
          exact hx
        unfold extractCouponsAux
        cases hE : extract_single_coupon b n with
        | some c0 => exact List.mem_cons_of_mem _ hmem
        | none => exact hmem

/-- Claim C5: a block of the page yields a coupon if and only if its brand,
code and description are all non-empty after trimming; the emitted
coupon's `button_index` is the block's zero-based ordinal among all
blocks in DOM order, and the coupon with `button_index = i` is exactly
block `i`'s stripped copy (so a skipped block leaves a gap without
shifting any other index). -/
theorem coupon_emission (blocks : List CouponBlock) (i : Nat) (b : CouponBlock)
    (hb : blocks[i]? = some b) :
    ((blockComplete b = true) ↔
      ∃ c ∈ extract_coupons blocks, c.button_index = i) ∧
    (∀ c ∈ extract_coupons blocks, c.button_index = i → c = strippedCoupon b i) := by
  have hmem : ∀ c : Coupon, c ∈ extract_coupons blocks ↔
      ∃ j b', blocks[j]? = some b' ∧ extract_single_coupon b' j = some c := by
    intro c
    rw [extract_coupons, mem_extractCouponsAux]
    constructor
    · rintro ⟨j, b', h1, h2⟩; exact ⟨j, b', h1, by simpa using h2⟩
    · rintro ⟨j, b', h1, h2⟩; exact ⟨j, b', h1, by simpa using h2⟩
  have hinv : ∀ (c : Coupon), c ∈ extract_coupons blocks → c.button_index = i →
      c = strippedCoupon b i ∧ blockComplete b = true := by
    intro c hc hbi
    obtain ⟨j, b', h1, h2⟩ := (hmem c).mp hc
    rw [extract_single_coupon_eq] at h2
    by_cases hcomp : blockComplete b' = true
    · rw [if_pos hcomp] at h2
      have hcb : c = strippedCoupon b' j := (Option.some_inj.mp h2).symm
      have hji : j = i := by rw [← hbi, hcb]; rfl
      subst hji
      have hbb : b' = b := by
        rw [h1] at hb
        exact Option.some_inj.mp hb
      subst hbb
      exact ⟨hcb, hcomp⟩
    · rw [if_neg hcomp] at h2
      exact Option.noConfusion h2
  refine ⟨⟨?_, ?_⟩, fun c hc hbi => (hinv c hc hbi).1⟩
  · intro hcomp
    refine ⟨strippedCoupon b i, ?_, rfl⟩
    refine (hmem _).mpr ⟨i, b, hb, ?_⟩
    rw [extract_single_coupon_eq, if_pos hcomp]
  · rintro ⟨c, hc, hbi⟩
    exact (hinv c hc hbi).2

/-- Witness for C5 on a page of three blocks whose middle block misses
its code span: block 0 is emitted with index 0 and block 1 is not. -/
theorem coupon_emission_witness :
    (∃ c ∈ extract_coupons
        [⟨some "B", some "C", some "D"⟩, ⟨some "B", none, some "D"⟩,
         ⟨some " B ", some "C2", some "D2"⟩],
      c.button_index = 0) ∧
    ¬ ∃ c ∈ extract_coupons
        [⟨some "B", some "C", some "D"⟩, ⟨some "B", none, some "D"⟩,
         ⟨some " B ", some "C2", some "D2"⟩],
      c.button_index = 1 := by
  constructor
  · exact (coupon_emission
      [⟨some "B", some "C", some "D"⟩, ⟨some "B", none, some "D"⟩,
       ⟨some " B ", some "C2", some "D2"⟩] 0 ⟨some "B", some "C", some "D"⟩
      rfl).1.mp (by decide)
  · intro h
    have := (coupon_emission
      [⟨some "B", some "C", some "D"⟩, ⟨some "B", none, some "D"⟩,
       ⟨some " B ", some "C2", some "D2"⟩] 1 ⟨some "B", none, some "D"⟩
      rfl).1.mpr h
    simp [blockComplete, pyStrip_empty] at this

/-! ## Claim theorems: level classification (discovery) -/

/-- Inversion of the main-pass extraction: the produced category keeps
the link's href as its path and is classified by `levelOf`. -/
theorem extractMainCategory_inv {l : RawLink} {c : Category}
    (h : extractMainCategory l = some c) :
    c.level = levelOf c.category_path ∧ c.category_path = hrefOf l := by
  rcases l with ⟨href?, text?⟩
  cases href? with
  | none => exact Option.noConfusion h
  | some o =>
    cases o with
    | none =>
      cases text? <;> exact Option.noConfusion h
    | some href =>
      cases text? with
      | none => exact Option.noConfusion h
      | some text =>
        simp only [extractMainCategory] at h
        split at h
        · have hc := Option.some_inj.mp h
          subst hc
          exact ⟨rfl, rfl⟩
        · exact Option.noConfusion h

/-- Inversion of the level-3 pass extraction: the produced category has
level 3, a path of at least 5 segments, and keeps the link's href. -/
theorem extractLevel3_inv {l : RawLink} {c : Category}
    (h : extractLevel3 l = some c) :
    c.level = 3 ∧ 5 ≤ (splitSlash c.category_path).length ∧
    c.category_path = hrefOf l := by
  rcases l with ⟨href?, text?⟩
  cases href? with
  | none => exact Option.noConfusion h
  | some o =>
    cases o with
    | none =>
      cases text? <;> exact Option.noConfusion h
    | some href =>
      cases text? with
      | none => exact Option.noConfusion h
      | some text =>
        simp only [extractLevel3] at h
        split at h
        · split at h
          · next h5 =>
            have hc := Option.some_inj.mp h
            subst hc
            exact ⟨rfl, h5, rfl⟩
          · exact Option.noConfusion h
        · exact Option.noConfusion h

/-- The taxonomy root page of the C2 counterexample: one selector match
whose href `/category/` has only 3 slash-delimited segments. -/
def p2page : CategoriesPage :=
  { title := "SimplyCodes"
    links1 := []
    links2 := [⟨some (some "/category/"), some "Deals"⟩]
    links3 := []
    liLinks := [] }

/-- Claim C2 counterexample: discovery classifies the 3-segment link
`/category/` as level 2, so "level 2 iff exactly 4 segments" fails. -/
theorem level2_iff_four_segments_false :
    ¬ ∀ c ∈ discover_categories p2page,
        (c.level = 2 ↔ (splitSlash c.category_path).length = 4) := by
  decide

/-- Claim C2 as amended: for every discovered category, level 3 is assigned
exactly to paths of at least 5 segments and level 2 exactly to paths of
at most 4 segments (paths with fewer than 4 segments fall back to the
default level 2). -/
theorem discovered_level_classification (p : CategoriesPage) (c : Category)
    (hc : c ∈ discover_categories p) :
    (c.level = 3 ↔ 5 ≤ (splitSlash c.category_path).length) ∧
    (c.level = 2 ↔ (splitSlash c.category_path).length ≤ 4) := by
  unfold discover_categories at hc
  split at hc
  · exact absurd hc (List.not_mem_nil c)
  · unfold extract_categories at hc
    rcases List.mem_append.mp hc with h | h
    · unfold mainPass at h
      obtain ⟨l, _, hEx⟩ := List.mem_filterMap.mp h
      have hl := (extractMainCategory_inv hEx).1
      unfold levelOf at hl
      by_cases h4 : (splitSlash c.category_path).length = 4
      · rw [if_pos h4] at hl
        rw [hl]
        omega
      · rw [if_neg h4] at hl
        by_cases h5 : (splitSlash c.category_path).length ≥ 5
        · rw [if_pos h5] at hl
          rw [hl]
          omega
        · rw [if_neg h5] at hl
          rw [hl]
          omega
    · unfold level3Pass at h
      obtain ⟨l, _, hEx⟩ := List.mem_filterMap.mp h
      obtain ⟨h3, h5, _⟩ := extractLevel3_inv hEx
      rw [h3]
      omega

/-- Witness for C2's amended classification, at the single category the
counterexample page produces. -/
theorem discovered_level_classification_witness :
    (((⟨"Deals", "https://simplycodes.com/category/", "/category/", 2, "", "", "",
        "", ""⟩ : Category).level = 3 ↔
      5 ≤ (splitSlash (⟨"Deals", "https://simplycodes.com/category/", "/category/",
        2, "", "", "", "", ""⟩ : Category).category_path).length) ∧
     ((⟨"Deals", "https://simplycodes.com/category/", "/category/", 2, "", "", "",
        "", ""⟩ : Category).level = 2 ↔
      (splitSlash (⟨"Deals", "https://simplycodes.com/category/", "/category/", 2,
        "", "", "", "", ""⟩ : Category).category_path).length ≤ 4)) :=
  discovered_level_classification p2page _ (by decide)

/-! ## Claim theorems: discovery deduplication -/

/-- The dedup loop emits links with pairwise distinct hrefs, none of
them already seen. -/
theorem dedupeAux_spec (links : List RawLink) :
    ∀ seen : List String,
      (∀ x ∈ dedupeAux links seen, hrefOf x ∉ seen) ∧
      List.Pairwise (fun a b => hrefOf a ≠ hrefOf b) (dedupeAux links seen) := by
  induction links with
  | nil => intro seen; simp [dedupeAux]
  | cons l ls ih =>
    intro seen
    unfold dedupeAux
    cases hh : l.href? with
    | none => exact ih seen
    | some o =>
      cases o with
      | none => exact ih seen
      | some hstr =>
        dsimp only
        have hl : hrefOf l = hstr := by simp [hrefOf, hh]
        by_cases hcond : hstr ≠ "" ∧ hstr ∉ seen
        · rw [if_pos hcond]
          obtain ⟨ihMem, ihPW⟩ := ih (hstr :: seen)
          constructor
          · intro x hx
            rcases List.mem_cons.mp hx with rfl | hx'
            · rw [hl]; exact hcond.2
            · intro hmem
              exact ihMem x hx' (List.mem_cons_of_mem _ hmem)
          · refine List.pairwise_cons.mpr ⟨?_, ihPW⟩
            intro b hb heq
            exact ihMem b hb (by rw [← heq, hl]; exact List.mem_cons_self _ _)
        · rw [if_neg hcond]
          exact ih seen

/-- Claim C3 as amended: within the main (level-2) pass the dedup-by-href
discipline makes every two produced entries differ in `category_path`;
the separate level-3 pass performs no such deduplication. -/
theorem mainPass_paths_pairwise_distinct (links1 links2 links3 : List RawLink) :
    List.Pairwise (fun a b : Category => a.category_path ≠ b.category_path)
      (mainPass links1 links2 links3) := by
  unfold mainPass dedupeByHref
  refine List.Pairwise.filterMap extractMainCategory ?_
    (dedupeAux_spec (links1 ++ links2 ++ links3) []).2
  intro a a' hR b hb b' hb'
  rw [Option.mem_def] at hb hb'
  rw [(extractMainCategory_inv hb).2, (extractMainCategory_inv hb').2]
  exact hR

/-- The raw link of the C3 counterexample: a level-3 href matched both
by the broad `a[href*="/category/"]` selector of the main pass and by
the `li` walk of the level-3 pass. -/
def dupLink : RawLink := ⟨some (some "/category/a/b/c"), some "C"⟩

/-- The taxonomy root page of the C3 counterexample. -/
def p3page : CategoriesPage :=
  { title := "SimplyCodes"
    links1 := []
    links2 := [dupLink]
    links3 := []
    liLinks := [dupLink] }

/-- Claim C3 counterexample: the same href discovered by the main pass and by
the level-3 pass yields two entries with equal `category_path` in one
discovery run — the full discovered sequence is not duplicate-free. -/
theorem discovery_dedup_across_passes_false :
    ¬ List.Pairwise (fun a b : Category => a.category_path ≠ b.category_path)
        (discover_categories p3page) := by
  decide

/-! ## Claim theorems: discovery error handling -/

/-- A link whose `get_attribute('href')` raises is skipped by the dedup
loop, whatever has been seen so far. -/
theorem dedupeAux_skip (l : RawLink) (hl : l.href? = none) (pre post : List RawLink) :
    ∀ seen, dedupeAux (pre ++ l :: post) seen = dedupeAux (pre ++ post) seen := by
  induction pre with
  | nil =>
    intro seen
    simp only [List.nil_append, dedupeAux, hl]
  | cons x xs ih =>
    intro seen
    simp only [List.cons_append]
    unfold dedupeAux
    cases hx : x.href? with
    | none => exact ih seen
    | some o =>
      cases o with
      | none => exact ih seen
      | some hstr =>
        dsimp only
        by_cases hcond : hstr ≠ "" ∧ hstr ∉ seen
        · rw [if_pos hcond, if_pos hcond, ih (hstr :: seen)]
        · rw [if_neg hcond, if_neg hcond, ih seen]

/-- A link whose accessors raise yields nothing in the level-3 pass. -/
theorem extractLevel3_fail (l : RawLink)
    (hl : l.href? = none ∨ l.text? = none) : extractLevel3 l = none := by
  rcases l with ⟨href?, text?⟩
  rcases hl with h | h
  · simp only at h
    subst h
    rfl
  · simp only at h
    subst h
    cases href? with
    | none => rfl
    | some o => cases o <;> rfl

/-- Claim C7: discovery never raises — it is a total function into category
lists; a blocked taxonomy root yields the empty sequence (not an
error); an error raised while reading one selector-matched link, or one
`li` link, only skips that link, degrading the result to a shorter
sequence. -/
theorem discover_categories_error_handling (p : CategoriesPage) :
    (isBlockedTitle p.title = true → discover_categories p = []) ∧
    (∀ (xs ys : List RawLink) (l : RawLink), l.href? = none →
      discover_categories ⟨p.title, p.links1, xs ++ l :: ys, p.links3, p.liLinks⟩
        = discover_categories ⟨p.title, p.links1, xs ++ ys, p.links3, p.liLinks⟩) ∧
    (∀ (xs ys : List RawLink) (l : RawLink), l.href? = none ∨ l.text? = none →
      discover_categories ⟨p.title, p.links1, p.links2, p.links3, xs ++ l :: ys⟩
        = discover_categories ⟨p.title, p.links1, p.links2, p.links3, xs ++ ys⟩) := by
  refine ⟨fun h => by simp [discover_categories, h], ?_, ?_⟩
  · intro xs ys l hl
    unfold discover_categories
    split
    · rfl
    · unfold extract_categories mainPass dedupeByHref
      simp only
      rw [show p.links1 ++ (xs ++ l :: ys) ++ p.links3
            = (p.links1 ++ xs) ++ l :: (ys ++ p.links3) by simp,
          dedupeAux_skip l hl (p.links1 ++ xs) (ys ++ p.links3) [],
          show p.links1 ++ (xs ++ ys) ++ p.links3
            = (p.links1 ++ xs) ++ (ys ++ p.links3) by simp]
  · intro xs ys l hl
    unfold discover_categories
    split
    · rfl
    · unfold extract_categories level3Pass
      simp only [List.filterMap_append, List.filterMap_cons,
        extractLevel3_fail l hl]

/-- Witness for C7: a blocked root yields `[]`; a raising link in the
second selector list or in the `li` list is skipped without affecting
the rest. -/
theorem discover_categories_error_handling_witness :
    discover_categories ⟨"403 Forbidden", [], [dupLink], [], []⟩ = [] ∧
    discover_categories ⟨"SimplyCodes", [], [] ++ (⟨none, some "X"⟩ : RawLink) :: [dupLink],
        [], []⟩
      = discover_categories ⟨"SimplyCodes", [], [] ++ [dupLink], [], []⟩ ∧
    discover_categories ⟨"SimplyCodes", [], [], [], [] ++ (⟨none, some "X"⟩ : RawLink) :: [dupLink]⟩
      = discover_categories ⟨"SimplyCodes", [], [], [], [] ++ [dupLink]⟩ := by
  refine ⟨(discover_categories_error_handling
      ⟨"403 Forbidden", [], [dupLink], [], []⟩).1 (by decide), ?_, ?_⟩
  · exact (discover_categories_error_handling
      ⟨"SimplyCodes", [], [], [], []⟩).2.1 [] [dupLink] ⟨none, some "X"⟩ rfl
  · exact (discover_categories_error_handling
      ⟨"SimplyCodes", [], [], [], []⟩).2.2 [] [dupLink] ⟨none, some "X"⟩ (Or.inl rfl)

/-! ## Claim theorems: level-3 tree attachment -/

theorem dget_cons_self (k : String) (v : Val) (rest : List (String × Val)) :
    dget ((k, v) :: rest) k = some v := by
  simp [dget]

theorem dget_mem {d : List (String × Val)} {k : String} {v : Val}
    (h : dget d k = some v) : (k, v) ∈ d := by
  induction d with
  | nil => exact Option.noConfusion h
  | cons kv rest ih =>
    by_cases h1 : kv.1 = k
    · rw [dget, if_pos h1] at h
      have : kv = (k, v) := by
        rcases kv with ⟨k0, v0⟩
        simp only at h1 h
        rw [h1, Option.some_inj.mp h]
      rw [← this]
      exact List.mem_cons_self _ _
    · rw [dget, if_neg h1] at h
      exact List.mem_cons_of_mem _ (ih h)

theorem all_of_dget {P : Val → Bool} {d : List (String × Val)} {k : String} {v : Val}
    (hall : d.all (fun kv => P kv.2) = true) (h : dget d k = some v) : P v = true := by
  have hm := dget_mem h
  exact List.all_eq_true.mp hall (k, v) hm

theorem ensureKey_present {tree : List (String × Val)} {k : String}
    (h : (dget tree k).isSome = true) (w : Val) : ensureKey tree k w = tree := by
  unfold ensureKey
  rw [if_pos h]

theorem ensureKey_absent {tree : List (String × Val)} {k : String} (v : Val)
    (h : dget tree k = none) : ensureKey tree k v = tree ++ [(k, v)] := by
  unfold ensureKey
  rw [h]
  simp only [Option.isSome_none, Bool.false_eq_true, if_false]
  exact dset_of_dget_none v h

/-- The synthesized level-2 node after its level-3 child has been
attached. -/
def level2SynthWithL3 (c : Category) : Val :=
  .dict [("subcategories_name", .str (pyTitle (pyReplaceDashSpace c.level2))),
         ("subcategories_path", .str ("/category/" ++ c.level1 ++ "/" ++ c.level2)),
         ("url", .str ("https://simplycodes.com/category/" ++ c.level1 ++ "/" ++
           c.level2)),
         ("level", .nat 2),
         ("parent_category", .str c.level1),
         ("subcategories", .dict [(c.level3, level3Node c)])]

/-- The freshly synthesized level-1 node holding only the new level-3
chain. -/
def level1NodeWithL3 (c : Category) : Val :=
  .dict [("category_name", .str (pyTitle (pyReplaceDashSpace c.level1))),
         ("category_path", .str ("/category/" ++ c.level1)),
         ("subcategories", .dict [(c.level2, level2SynthWithL3 c)])]

/-- Attaching the level-3 node to the freshly synthesized level-2 node
fills in its `subcategories` map. -/
theorem updL2Node_level2Synth (c : Category) :
    updL2Node c.level3 (level3Node c) (level2Synth c.level1 c.level2)
      = level2SynthWithL3 c := rfl

/-- In the level-3 branch the loop body is the ensure-then-attach
pipeline. -/
theorem orgStep_level3_eq (tree : List (String × Val)) (c : Category)
    (hl : c.level = 3) (hs : c.level1 ≠ "" ∧ c.level2 ≠ "" ∧ c.level3 ≠ "") :
    orgStep tree c
      = attachL3 (org3Pre tree c) c.level1 c.level2 c.level3 (level3Node c) := by
  unfold orgStep
  rw [hl]
  rw [if_neg (by decide : ¬ (3 : Nat) = 2), if_pos (rfl : (3 : Nat) = 3), if_pos hs]

/-- When the level-1 slug is absent, the ensure steps append a fresh
level-1 node holding the synthesized level-2 node. -/
theorem org3Pre_absent (tree : List (String × Val)) (c : Category)
    (h0 : dget tree c.level1 = none) :
    org3Pre tree c = tree ++ [(c.level1, .dict
      [("category_name", .str (pyTitle (pyReplaceDashSpace c.level1))),
       ("category_path", .str ("/category/" ++ c.level1)),
       ("subcategories", .dict [(c.level2, level2Synth c.level1 c.level2)])])] := by
  unfold org3Pre
  rw [ensureKey_absent _ h0]
  have hg : getSubs (tree ++ [(c.level1, level1Default c.level1)]) c.level1 = [] := by
    unfold getSubs
    rw [dget_append_of_dget_none h0, dget_cons_self]
    rfl
  rw [hg]
  simp only [dget, Option.isSome_none, Bool.false_eq_true, if_false]
  unfold setSub2
  rw [dmodify_append_singleton _ _ h0]
  rfl

/-- Helper for C8, absent case: a level-3 category whose level-1 slug is new appends
one fully synthesized level-1/level-2 chain carrying the level-3 node. -/
theorem orgStep_level3_absent (tree : List (String × Val)) (c : Category)
    (hl : c.level = 3) (h1c : c.level1 ≠ "") (h2c : c.level2 ≠ "")
    (h3c : c.level3 ≠ "") (h0 : dget tree c.level1 = none) :
    orgStep tree c = tree ++ [(c.level1, level1NodeWithL3 c)] := by
  rw [orgStep_level3_eq tree c hl ⟨h1c, h2c, h3c⟩, org3Pre_absent tree c h0]
  unfold attachL3
  rw [dmodify_append_singleton _ _ h0]
  have hin : dmodify [(c.level2, level2Synth c.level1 c.level2)] c.level2
      (updL2Node c.level3 (level3Node c)) = [(c.level2, level2SynthWithL3 c)] := by
    rw [dmodify_cons_self, updL2Node_level2Synth]
  simp only [dmodify, dget, if_pos, if_neg, level1NodeWithL3]
  simp [hin, dmodify]
  exact updL2Node_level2Synth c

/-- Attaching a level-3 node under an existing, well-shaped level-2 node
places it at the expected nested position. -/
theorem attachL3_existing (tree : List (String × Val)) (l1 l2 l3 : String)
    (node : Val) (d sd : List (String × Val)) (w : Val)
    (hv : dget tree l1 = some (.dict d))
    (hsub : dget d "subcategories" = some (.dict sd))
    (hw : dget sd l2 = some w) (hwOK : l2NodeOK w = true) :
    treeNodeAt3 (attachL3 tree l1 l2 l3 node) l1 l2 l3 = some node := by
  cases w with
  | str s => simp [l2NodeOK] at hwOK
  | nat n => simp [l2NodeOK] at hwOK
  | list l => simp [l2NodeOK] at hwOK
  | dict wd =>
    simp only [attachL3, treeNodeAt3, treeNodeAt2, dget_dmodify_self, hv,
      Option.map_some']
    simp only [dget_dmodify_self, hsub, Option.map_some']
    simp only [dget_dmodify_self, hw, Option.map_some', updL2Node]
    cases hcur : dget wd "subcategories" with
    | none =>
      simp only [hcur, Option.getD_none, dget_dmodify_self, dget_dset_self,
        Option.map_some', dset, dget_cons_self]
    | some sv =>
      cases sv with
      | dict s3 =>
        simp only [hcur, Option.getD_some, dget_dmodify_self, dget_dset_self,
          Option.map_some']
      | str s =>
        simp only [l2NodeOK, hcur] at hwOK
        exact Bool.noConfusion hwOK
      | nat n =>
        simp only [l2NodeOK, hcur] at hwOK
        exact Bool.noConfusion hwOK
      | list l =>
        simp only [l2NodeOK, hcur] at hwOK
        exact Bool.noConfusion hwOK

/-- Helper for C8, general case: on a well-shaped tree, a level-3 category with
non-empty slugs always ends up attached at
`tree[level1].subcategories[level2].subcategories[level3]`. -/
theorem orgStep_level3_attach (tree : List (String × Val)) (c : Category)
    (hT : treeOK tree = true) (hl : c.level = 3)
    (h1c : c.level1 ≠ "") (h2c : c.level2 ≠ "") (h3c : c.level3 ≠ "") :
    treeNodeAt3 (orgStep tree c) c.level1 c.level2 c.level3
      = some (level3Node c) := by
  cases h0 : dget tree c.level1 with
  | none =>
    rw [orgStep_level3_absent tree c hl h1c h2c h3c h0]
    simp only [treeNodeAt3, treeNodeAt2, dget_append_of_dget_none h0,
      dget_cons_self, level1NodeWithL3, level2SynthWithL3]
    simp [dget, dget_cons_self]
  | some v =>
    unfold treeOK at hT
    have hOK := all_of_dget hT h0
    cases v with
    | str s => simp [l1NodeOK] at hOK
    | nat n => simp [l1NodeOK] at hOK
    | list l => simp [l1NodeOK] at hOK
    | dict d =>
      rw [orgStep_level3_eq tree c hl ⟨h1c, h2c, h3c⟩]
      cases hsub : dget d "subcategories" with
      | none =>
        simp only [l1NodeOK, hsub] at hOK
        exact Bool.noConfusion hOK
      | some sv =>
        cases sv with
        | str s =>
          simp only [l1NodeOK, hsub] at hOK
          exact Bool.noConfusion hOK
        | nat n =>
          simp only [l1NodeOK, hsub] at hOK
          exact Bool.noConfusion hOK
        | list l =>
          simp only [l1NodeOK, hsub] at hOK
          exact Bool.noConfusion hOK
        | dict sd =>
          have hall : sd.all (fun kv => l2NodeOK kv.2) = true := by
            simp only [l1NodeOK, hsub] at hOK
            exact hOK
          have hpres : (dget tree c.level1).isSome = true := by rw [h0]; rfl
          have hgs : getSubs tree c.level1 = sd := by
            simp only [getSubs, h0, hsub]
          cases hw : dget sd c.level2 with
          | some w =>
            have hpre : org3Pre tree c = tree := by
              unfold org3Pre
              rw [ensureKey_present hpres (level1Default c.level1), hgs, hw]
              simp
            rw [hpre]
            exact attachL3_existing tree c.level1 c.level2 c.level3
              (level3Node c) d sd w h0 hsub hw (all_of_dget hall hw)
          | none =>
            have hpre : org3Pre tree c
                = setSub2 tree c.level1 c.level2 (level2Synth c.level1 c.level2) := by
              unfold org3Pre
              rw [ensureKey_present hpres (level1Default c.level1), hgs, hw]
              simp
            rw [hpre]
            have hv' : dget (setSub2 tree c.level1 c.level2
                  (level2Synth c.level1 c.level2)) c.level1
                = some (.dict (dmodify d "subcategories" (fun sv =>
                    match sv with
                    | .dict sd => .dict (dset sd c.level2 (level2Synth c.level1 c.level2))
                    | sv => sv))) := by
              simp only [setSub2, dget_dmodify_self, h0, Option.map_some']
            have hsub' : dget (dmodify d "subcategories" (fun sv =>
                    match sv with
                    | .dict sd => .dict (dset sd c.level2 (level2Synth c.level1 c.level2))
                    | sv => sv)) "subcategories"
                = some (.dict (dset sd c.level2 (level2Synth c.level1 c.level2))) := by
              simp only [dget_dmodify_self, hsub, Option.map_some']
            exact attachL3_existing _ c.level1 c.level2 c.level3 (level3Node c) _ _ _
              hv' hsub' (dget_dset_self _ _ _) rfl

/-- Claim C8 as amended: for every level-3 CategoryLink whose `level1`,
`level2` and `level3` slug fields are all non-empty, the Tree Builder
creates the level-1 node if absent (title-cased hyphens-to-spaces name,
path `/category/<level1>`) and the level-2 node if absent with
synthesized defaults (title-cased slug name, reconstructed path and
URL), and attaches the level-3 node — carrying the link's own title,
path and URL — under that level-2 node; a level-3 link with an empty
slug field is silently dropped instead. -/
theorem level3_category_attached (tree : List (String × Val)) (c : Category)
    (hT : treeOK tree = true) (hl : c.level = 3)
    (h1c : c.level1 ≠ "") (h2c : c.level2 ≠ "") (h3c : c.level3 ≠ "") :
    treeNodeAt3 (orgStep tree c) c.level1 c.level2 c.level3
      = some (level3Node c) ∧
    (dget tree c.level1 = none →
      orgStep tree c = tree ++ [(c.level1, level1NodeWithL3 c)]) :=
  ⟨orgStep_level3_attach tree c hT hl h1c h2c h3c,
   fun h0 => orgStep_level3_absent tree c hl h1c h2c h3c h0⟩

/-- Witness for C8 at the empty tree and a concrete level-3 category. -/
theorem level3_category_attached_witness :
    treeNodeAt3 (orgStep [] c8good) "beauty" "skincare" "tools"
      = some (level3Node c8good) ∧
    orgStep [] c8good = [("beauty", level1NodeWithL3 c8good)] := by
  have h := level3_category_attached [] c8good rfl rfl (by decide) (by decide)
    (by decide)
  exact ⟨h.1, h.2 rfl⟩

end SimplyCodes
